import Mathlib

/-!
Shallow embedding of the Clash-configuration node extractor
(src/services/clashService.ts, function parseClashNodes) together with
proofs about the claims of the specification.

The JavaScript string primitives used by the source (trim, startsWith,
includes, split by a character, split with a limit, substring, Number
conversion, the two regular expressions) are modelled explicitly below,
each one next to a comment naming the host-language behaviour it embeds.
-/

set_option maxRecDepth 100000

/-- The white-space characters recognised by the model of JavaScript
string trimming and of the regex class backslash-s: space, tab, line feed,
carriage return, vertical tab, form feed.  (Unicode white-space beyond
ASCII is not modelled; no input in this development contains any.) -/
def jsWs (c : Char) : Bool :=
  c == ' ' || c == '\t' || c == '\n' || c == '\r' ||
  c == Char.ofNat 11 || c == Char.ofNat 12

/-- The double-quote character. -/
def dquote : Char := Char.ofNat 34

/-- The single-quote character. -/
def squote : Char := Char.ofNat 39

/-- The opening curly brace character. -/
def lbrace : Char := Char.ofNat 123

/-- The closing curly brace character. -/
def rbrace : Char := Char.ofNat 125

/-- Remove leading and trailing white space from a character list:
the model of JavaScript String.prototype.trim. -/
def trimList (l : List Char) : List Char :=
  ((l.dropWhile jsWs).reverse.dropWhile jsWs).reverse

/-- JavaScript String.prototype.trim on Lean strings. -/
def jsTrim (s : String) : String := ⟨trimList s.data⟩

/-- JavaScript String.prototype.startsWith. -/
def jsStartsWith (s p : String) : Bool := p.data.isPrefixOf s.data

/-- JavaScript String.prototype.endsWith. -/
def jsEndsWith (s p : String) : Bool := p.data.isSuffixOf s.data

/-- JavaScript String.prototype.includes for a single-character needle. -/
def jsIncludes (s : String) (c : Char) : Bool := s.data.contains c

/-- Split a character list at every occurrence of the character c,
keeping empty segments: the model of JavaScript String.prototype.split
with a single-character separator and no limit. -/
def splitChar (c : Char) : List Char → List (List Char)
  | [] => [[]]
  | x :: xs =>
    match splitChar c xs with
    | [] => [[]]
    | h :: t => if x == c then [] :: h :: t else (x :: h) :: t

/-- The line decomposition performed by configContent.split with
the newline character in the source. -/
def jsSplitLines (s : String) : List String :=
  (splitChar '\n' s.data).map fun l => ⟨l⟩

/-- JavaScript String.prototype.substring: both indices are clamped to
the string length and swapped when given in decreasing order. -/
def jsSubstring (s : String) (a b : Nat) : String :=
  let n := s.data.length
  let x := min (min a n) (min b n)
  let y := max (min a n) (min b n)
  ⟨(s.data.take y).drop x⟩

/-- Quote stripping as in the source: when the value starts and ends with
a double quote, or starts and ends with a single quote, take
value.substring of 1 and length minus 1. -/
def stripQuotes (v : String) : String :=
  if (jsStartsWith v "\x22" && jsEndsWith v "\x22") ||
     (jsStartsWith v "\x27" && jsEndsWith v "\x27") then
    jsSubstring v 1 (v.data.length - 1)
  else v

/-- Value of a list of decimal digit characters. -/
def digitsVal (l : List Char) : Nat :=
  l.foldl (fun a c => a * 10 + (c.toNat - 48)) 0

/-- Unsigned decimal literal: digits with an optional fractional part
after a decimal point (at least one digit overall).  Returns the exact
rational value. -/
def parseDecimal (l : List Char) : Option ℚ :=
  let ip := l.takeWhile Char.isDigit
  match l.dropWhile Char.isDigit with
  | [] => if ip.isEmpty then none else some (digitsVal ip : ℚ)
  | '.' :: fp =>
    if fp.all Char.isDigit && !(ip.isEmpty && fp.isEmpty) then
      some ((digitsVal ip : ℚ) + (digitsVal fp : ℚ) / (10 : ℚ) ^ fp.length)
    else none
  | _ => none

/-- Model of the JavaScript Number conversion applied to a string, with
none standing for NaN: surrounding white space is ignored, the empty
string converts to 0, and an optional sign precedes a decimal literal.
Restriction of the model: exponent notation, hexadecimal, octal, binary
literals and Infinity are mapped to none; no input considered in this
development uses any of those forms. -/
def jsNumber (s : String) : Option ℚ :=
  match trimList s.data with
  | [] => some 0
  | '+' :: r => parseDecimal r
  | '-' :: r => (parseDecimal r).map (fun q => -q)
  | t => parseDecimal t

/-- Scanner state for the quote-tracking language of the comma-splitting
regex lookahead: outside quotes, inside double quotes, inside single
quotes, or no possible parse. -/
inductive QPos
  | out
  | dq
  | sq
  | bad
deriving DecidableEq

/-- One step of the quote-tracking scanner.  Inside a double-quoted group
the lookahead pattern forbids single quotes (its double-quoted group
matches no quote character of either kind), while a single-quoted group
admits double quotes; this mirrors the two alternatives of the regex. -/
def qstep (st : QPos) (c : Char) : QPos :=
  match st with
  | .out => if c == dquote then .dq else if c == squote then .sq else .out
  | .dq => if c == dquote then .out else if c == squote then .bad else .dq
  | .sq => if c == squote then .out else .sq
  | .bad => .bad

/-- Whether a suffix of the body matches the lookahead of the splitting
regex: the remainder must decompose into quote-free spans and completely
quoted groups, i.e. the quote scanner ends outside all quotes. -/
def restOK (l : List Char) : Bool := l.foldl qstep QPos.out == QPos.out

/-- Quote-aware comma split: the model of propertiesString.split with the
lookahead regex of the source.  A comma is a split point exactly when the
text after it satisfies the lookahead; the match also consumes the white
space that follows the comma (the Boolean argument records that the
scanner is currently inside such a consumed white-space run). -/
def splitQA : Bool → List Char → List (List Char)
  | _, [] => [[]]
  | skip, c :: rest =>
    if skip && jsWs c then splitQA true rest
    else if c == ',' && restOK rest then [] :: splitQA true rest
    else
      match splitQA false rest with
      | [] => [[c]]
      | h :: t => (c :: h) :: t

/-- The coerced value type: a property value is a string, a number or a
Boolean, exactly the union type used by the source. -/
inductive JSValue
  | str (s : String)
  | num (q : ℚ)
  | bool (b : Bool)
deriving DecidableEq, Repr

/-- A property mapping, in insertion order. -/
abbrev Props := List (String × JSValue)

/-- Assignment into the property mapping: overwriting keeps the original
position of the key, a new key is appended, as for a JavaScript object. -/
def setProp (props : Props) (k : String) (v : JSValue) : Props :=
  if props.any (fun p => p.1 == k) then
    props.map (fun p => if p.1 == k then (k, v) else p)
  else props ++ [(k, v)]

/-- Property lookup, none standing for undefined. -/
def getProp (props : Props) (k : String) : Option JSValue :=
  (props.find? (fun p => p.1 == k)).map (fun p => p.2)

/-- Type coercion of one already-trimmed, quote-stripped value, in the
order of the source: a port key with a numeric value becomes a number,
otherwise the literals true and false become Booleans, otherwise the
value stays a string. -/
def coerceValue (key value : String) : JSValue :=
  if key == "port" && (jsNumber value).isSome then .num ((jsNumber value).getD 0)
  else if value == "true" then .bool true
  else if value == "false" then .bool false
  else .str value

/-- Processing of one comma segment: pair.split with separator colon and
limit 2 — JavaScript truncates the result to the first two segments —
then the length-two check, trimming, quote stripping and coercion.
Returns none for a segment dropped as malformed. -/
def coercePair (pair : String) : Option (String × JSValue) :=
  match (splitChar ':' pair.data).take 2 with
  | [k, v] =>
    let key := jsTrim ⟨k⟩
    let value := stripQuotes (jsTrim ⟨v⟩)
    some (key, coerceValue key value)
  | _ => none

/-- Folds the coerced pairs of the comma segments into one mapping. -/
def buildProps : Props → List (List Char) → Props
  | props, [] => props
  | props, seg :: rest =>
    match coercePair ⟨seg⟩ with
    | some (k, v) => buildProps (setProp props k v) rest
    | none => buildProps props rest

/-- The full record extractor on a record body. -/
def parseProps (body : String) : Props := buildProps [] (splitQA false body.data)

/-- Capture of the single-line record regex: leading white space of the
inner text is consumed greedily by the pattern, except that when the
inner text is white space only, backtracking leaves exactly its last
character in the capture. -/
def captureBody (inner : List Char) : String :=
  let c := inner.dropWhile jsWs
  if c.isEmpty then ⟨inner.reverse.take 1⟩ else ⟨c⟩

/-- Match of the trimmed line against the single-line record pattern of
the source: a dash, a space and an opening brace, then at least one
character none of which is a closing brace, then the closing brace as the
final character.  Returns the captured body. -/
def matchNode (t : String) : Option String :=
  match t.data with
  | a :: b :: c :: rest =>
    if a == '-' && b == ' ' && c == lbrace && rest.getLast? == some rbrace
        && !(rest.dropLast.contains rbrace) && !rest.dropLast.isEmpty then
      some (captureBody rest.dropLast)
    else none
  | _ => none

/-- The section-exit test of the source on the trimmed line: the outer
conjunction (not a list item, non-empty, not a comment) and the inner one
(contains a colon, does not start with a space — tested, as in the
source, on the trimmed line). -/
def exitCond (t : String) : Bool :=
  (!jsStartsWith t "-" && t != "" && !jsStartsWith t "#") &&
  (jsIncludes t ':' && !jsStartsWith t " ")

/-- JavaScript truthiness of a coerced value. -/
def truthy : JSValue → Bool
  | .str s => s != ""
  | .num q => q != 0
  | .bool b => b

/-- Truthiness of a possibly undefined value. -/
def truthyOpt (o : Option JSValue) : Bool := o.elim false truthy

/-- The required-field check of the source: name, type and server truthy,
port distinct from undefined. -/
def validProps (props : Props) : Bool :=
  truthyOpt (getProp props "name") && truthyOpt (getProp props "type") &&
  truthyOpt (getProp props "server") && (getProp props "port").isSome

/-- The line loop of parseClashNodes: the Boolean is the
inProxiesSection flag. -/
def scanLines : Bool → List String → List Props
  | _, [] => []
  | inSec, l :: ls =>
    if jsStartsWith (jsTrim l) "proxies:" then scanLines true ls
    else if inSec then
      if exitCond (jsTrim l) then scanLines false ls
      else
        match matchNode (jsTrim l) with
        | some body =>
          if validProps (parseProps body) then parseProps body :: scanLines true ls
          else scanLines true ls
        | none => scanLines true ls
    else scanLines false ls

/-- The extractor parseClashNodes of the source. -/
def parseClashNodes (s : String) : List Props :=
  scanLines false (jsSplitLines s)

/-- Claim C1: on the segment server colon https colon slash slash h, the
source's split with limit 2 truncates after the second colon, so the
extracted value is the string https, not the full remainder after the
first colon as the specification and the source's own comment state. -/
theorem c1_split_truncates_value :
    coercePair "server: https://h" = some ("server", JSValue.str "https") := by
  decide

/-- Claim C2 counterexample: the indented line with trimmed form
rules-colon satisfies the section-exit test even though its original text
begins with white space, so the scanner leaves the section and the
following well-formed record line yields no record. -/
theorem c2_counterexample :
    exitCond (jsTrim "  rules:") = true ∧
    scanLines true ["  rules:", "- \x7b name: n, type: t, server: s, port: 1 \x7d"] = [] := by
  constructor
  · decide
  · decide

/-- Claim C4: in the record body with port value quoted true, the numeric
rule fails (Number of the string true is NaN) and the value falls through
to the Boolean rule, so port is coerced to Boolean true and the record is
emitted. -/
theorem c4_port_true_boolean :
    parseProps "name: n, type: t, server: s, port: \x22true\x22" =
      [("name", JSValue.str "n"), ("type", JSValue.str "t"),
       ("server", JSValue.str "s"), ("port", JSValue.bool true)] ∧
    validProps (parseProps "name: n, type: t, server: s, port: \x22true\x22") = true := by
  constructor
  · decide
  · decide

/-- Claim C5: comma splitting of the body is quote aware: the body with
the quoted value a-comma-b produces exactly four segments, and the value
recorded for name is exactly the string a-comma-b with the embedded comma
preserved. -/
theorem c5_quote_aware_split :
    (splitQA false ("name: \x22a, b\x22, type: x, server: y, port: 1").data).length = 4 ∧
    parseProps "name: \x22a, b\x22, type: x, server: y, port: 1" =
      [("name", JSValue.str "a, b"), ("type", JSValue.str "x"),
       ("server", JSValue.str "y"), ("port", JSValue.num 1)] := by
  constructor
  · decide
  · decide

/-- Claim C6: the five-line scenario document yields exactly two records,
in order: A with numeric port 443 and cipher aes-256-gcm, then B with
numeric port 8443 and tls Boolean true; the proxy-groups section
contributes no record. -/
theorem c6_end_to_end :
    parseClashNodes ("proxies:\n  - \x7b name: \x22A\x22, type: ss, server: 1.2.3.4, port: 443, cipher: aes-256-gcm \x7d\n  - \x7b name: \x22B\x22, type: vmess, server: b.example.com, port: \x228443\x22, tls: true \x7d\nproxy-groups:\n  - \x7b name: \x22Auto\x22, type: select \x7d") =
      [[("name", JSValue.str "A"), ("type", JSValue.str "ss"),
        ("server", JSValue.str "1.2.3.4"), ("port", JSValue.num 443),
        ("cipher", JSValue.str "aes-256-gcm")],
       [("name", JSValue.str "B"), ("type", JSValue.str "vmess"),
        ("server", JSValue.str "b.example.com"), ("port", JSValue.num 8443),
        ("tls", JSValue.bool true)]] := by
  decide

/-- Claim C3 counterexample: a mapping whose port value is the empty
string passes the required-field check, because the check on port is only
that the value is distinct from undefined; moreover the full parse of a
record with port value an empty quoted string emits the record (with port
coerced to the number 0), rather than rejecting it. -/
theorem c3_counterexample :
    validProps [("name", JSValue.str "n"), ("type", JSValue.str "t"),
                ("server", JSValue.str "s"), ("port", JSValue.str "")] = true ∧
    parseClashNodes "proxies:\n- \x7b name: n, type: t, server: s, port: \x22\x22 \x7d" ≠ [] := by
  constructor
  · decide
  · decide

/-- Claim C3 amended: a pair with key port and empty quote-stripped value
is coerced to the number 0, since the Number conversion of the empty
string is 0; the validation check on port only requires the value to be
defined, so the record is emitted with port 0 rather than rejected. -/
theorem c3_empty_port_accepted :
    coercePair "port: \x22\x22" = some ("port", JSValue.num 0) ∧
    parseClashNodes "proxies:\n- \x7b name: n, type: t, server: s, port: \x22\x22 \x7d" =
      [[("name", JSValue.str "n"), ("type", JSValue.str "t"),
        ("server", JSValue.str "s"), ("port", JSValue.num 0)]] := by
  constructor
  · decide
  · decide

/-- Instrumented variant of the segment processing in which the two
array subscripts of the source (parts index 0 and parts index 1, whose
failure would surface as a thrown TypeError when trim is invoked on an
undefined value) are checked accesses; every other operation of the
source is total. -/
def coercePairE (pair : String) : Except String (Option (String × JSValue)) :=
  if ((splitChar ':' pair.data).take 2).length == 2 then
    match ((splitChar ':' pair.data).take 2).get? 0,
        ((splitChar ':' pair.data).take 2).get? 1 with
    | some k, some v =>
      Except.ok (some (jsTrim ⟨k⟩, coerceValue (jsTrim ⟨k⟩) (stripQuotes (jsTrim ⟨v⟩))))
    | _, _ => Except.error "trim invoked on an undefined value"
  else Except.ok none

/-- Instrumented variant of buildProps propagating a possible error. -/
def buildPropsE : Props → List (List Char) → Except String Props
  | props, [] => Except.ok props
  | props, seg :: rest =>
    match coercePairE ⟨seg⟩ with
    | Except.error e => Except.error e
    | Except.ok none => buildPropsE props rest
    | Except.ok (some (k, v)) => buildPropsE (setProp props k v) rest

/-- Instrumented variant of the line loop propagating a possible error. -/
def scanLinesE : Bool → List String → Except String (List Props)
  | _, [] => Except.ok []
  | inSec, l :: ls =>
    if jsStartsWith (jsTrim l) "proxies:" then scanLinesE true ls
    else if inSec then
      if exitCond (jsTrim l) then scanLinesE false ls
      else
        match matchNode (jsTrim l) with
        | some body =>
          match buildPropsE [] (splitQA false body.data) with
          | Except.error e => Except.error e
          | Except.ok props =>
            match scanLinesE true ls with
            | Except.error e => Except.error e
            | Except.ok ns => Except.ok (if validProps props then props :: ns else ns)
        | none => scanLinesE true ls
    else scanLinesE false ls

/-- Instrumented variant of the extractor. -/
def parseClashNodesE (s : String) : Except String (List Props) :=
  scanLinesE false (jsSplitLines s)

/-- The checked segment processing never fails, and agrees with the total
model. -/
theorem coercePairE_ok (pair : String) :
    coercePairE pair = Except.ok (coercePair pair) := by
  rcases h : (splitChar ':' pair.data).take 2 with _ | ⟨k, _ | ⟨v, rest⟩⟩
  · simp [coercePairE, coercePair, h]
  · simp [coercePairE, coercePair, h]
  · cases rest with
    | nil => simp [coercePairE, coercePair, h]
    | cons w t => simp [coercePairE, coercePair, h]

/-- The checked pair folding never fails, and agrees with the total
model. -/
theorem buildPropsE_ok (segs : List (List Char)) :
    ∀ props, buildPropsE props segs = Except.ok (buildProps props segs) := by
  induction segs with
  | nil => intro props; rfl
  | cons seg rest ih =>
    intro props
    simp only [buildPropsE, buildProps, coercePairE_ok]
    rcases coercePair ⟨seg⟩ with _ | ⟨k, v⟩
    · exact ih props
    · exact ih _

/-- The checked line loop never fails, and agrees with the total model. -/
theorem scanLinesE_ok (ls : List String) :
    ∀ b, scanLinesE b ls = Except.ok (scanLines b ls) := by
  induction ls with
  | nil => intro b; rfl
  | cons l ls ih =>
    intro b
    cases hps : jsStartsWith (jsTrim l) "proxies:" <;>
      cases b <;>
        cases hex : exitCond (jsTrim l) <;>
          rcases hmn : matchNode (jsTrim l) with _ | body <;>
            simp [scanLinesE, scanLines, hps, hex, hmn, buildPropsE_ok, ih, parseProps]

/-- Claim C10: totality of extraction: on every input string the
instrumented extractor, in which each possibly-throwing operation of the
source is an explicit checked step, completes without an error and
returns exactly the array of the total model. -/
theorem c10_extraction_total (s : String) :
    parseClashNodesE s = Except.ok (parseClashNodes s) :=
  scanLinesE_ok (jsSplitLines s) false

/-- The result of trimming never starts with a white-space character. -/
theorem trimList_head_not_ws (l : List Char) (c : Char) (cs : List Char)
    (h : trimList l = c :: cs) : jsWs c = false := by
  have hpre : trimList l <+: l.dropWhile jsWs := by
    have he : trimList l = List.rdropWhile jsWs (l.dropWhile jsWs) := rfl
    rw [he]
    exact List.rdropWhile_prefix _ _
  rw [h] at hpre
  obtain ⟨t, ht⟩ := hpre
  have h2 : l.dropWhile jsWs = c :: (cs ++ t) := by
    rw [← ht]; simp
  have h3 := List.head?_dropWhile_not jsWs l
  rw [h2] at h3
  simpa using h3

/-- A non-empty trimmed line never starts with a space, so the test on
the trimmed line in the exit heuristic is vacuous. -/
theorem jsTrim_startsWith_space (line : String) (c : Char) (cs : List Char)
    (h : (jsTrim line).data = c :: cs) : jsStartsWith (jsTrim line) " " = false := by
  have hb : jsWs c = false := trimList_head_not_ws line.data c cs h
  have hc : (' ' == c) = false := by
    cases heq : (' ' == c)
    · rfl
    · exfalso
      have : c = ' ' := by
        have := eq_of_beq heq
        exact this.symm
      rw [this] at hb
      exact absurd hb (by decide)
  show (" ").data.isPrefixOf (jsTrim line).data = false
  rw [h]
  have hsd : (" ").data = [' '] := rfl
  rw [hsd, List.isPrefixOf_cons₂, hc]
  rfl

/-- Claim C2, amended: the section-exit test depends only on the trimmed
line being non-empty, not a comment, not a list item and containing a
colon; the no-leading-space test is evaluated on the trimmed line, where
it always holds, so indented lines are treated exactly like unindented
ones. -/
theorem c2_exit_ignores_indentation (line : String) :
    exitCond (jsTrim line) =
      (!jsStartsWith (jsTrim line) "-" && (jsTrim line != "") &&
       !jsStartsWith (jsTrim line) "#" && jsIncludes (jsTrim line) ':') := by
  cases h : (jsTrim line).data with
  | nil =>
    have ht : jsTrim line = "" := String.ext (by rw [h])
    rw [ht]
    decide
  | cons c cs =>
    have hsp : jsStartsWith (jsTrim line) " " = false :=
      jsTrim_startsWith_space line c cs h
    unfold exitCond
    rw [hsp]
    cases jsStartsWith (jsTrim line) "-" <;>
      cases hne : (jsTrim line != "") <;>
        cases jsStartsWith (jsTrim line) "#" <;>
          cases jsIncludes (jsTrim line) ':' <;> rfl

/-- If no line of the document has a trimmed form starting with the
section-header token, the scanner never enters the section and emits
nothing. -/
theorem scanLines_no_header (ls : List String)
    (h : ∀ l ∈ ls, jsStartsWith (jsTrim l) "proxies:" = false) :
    scanLines false ls = [] := by
  induction ls with
  | nil => rfl
  | cons l ls ih =>
    have hl := h l (List.mem_cons_self l ls)
    simp only [scanLines, hl]
    exact ih fun x hx => h x (List.mem_cons_of_mem l hx)

/-- Claim C7: for every document that contains no proxies-colon header
line, extraction returns the empty sequence of records. -/
theorem c7_no_header_empty (s : String)
    (h : ∀ l ∈ jsSplitLines s, jsStartsWith (jsTrim l) "proxies:" = false) :
    parseClashNodes s = [] :=
  scanLines_no_header (jsSplitLines s) h

/-- Witness for claim C7 at a concrete header-free document. -/
theorem c7_witness :
    (∀ l ∈ jsSplitLines "a: 1\n- \x7b name: n, type: t, server: s, port: 1 \x7d",
      jsStartsWith (jsTrim l) "proxies:" = false) ∧
    parseClashNodes "a: 1\n- \x7b name: n, type: t, server: s, port: 1 \x7d" = [] :=
  ⟨by decide, c7_no_header_empty _ (by decide)⟩

/-- Every property mapping the scanner emits passes the required-field
check. -/
theorem scanLines_emits_valid (ls : List String) :
    ∀ (b : Bool) (r : Props), r ∈ scanLines b ls → validProps r = true := by
  induction ls with
  | nil =>
    intro b r h
    simp [scanLines] at h
  | cons l ls ih =>
    intro b r h
    simp only [scanLines] at h
    split at h
    · exact ih true r h
    · split at h
      · split at h
        · exact ih false r h
        · split at h
          · rename_i body hb
            split at h
            · rename_i hvalid
              rcases List.mem_cons.mp h with hr | hr
              · rw [hr]; exact hvalid
              · exact ih true r hr
            · exact ih true r h
          · exact ih true r h
      · exact ih false r h

/-- Claim C8: invariant of the output sequence: every emitted record has
truthy name, type and server properties and a defined port property. -/
theorem c8_emitted_records_valid (s : String) (r : Props)
    (h : r ∈ parseClashNodes s) :
    truthyOpt (getProp r "name") = true ∧ truthyOpt (getProp r "type") = true ∧
    truthyOpt (getProp r "server") = true ∧ (getProp r "port").isSome = true := by
  have hv := scanLines_emits_valid (jsSplitLines s) false r h
  simpa [validProps, Bool.and_eq_true, and_assoc] using hv

/-- Witness for claim C8 at a concrete document and record. -/
theorem c8_witness :
    [("name", JSValue.str "n"), ("type", JSValue.str "t"),
     ("server", JSValue.str "s"), ("port", JSValue.num 1)] ∈
      parseClashNodes "proxies:\n- \x7b name: n, type: t, server: s, port: 1 \x7d" ∧
    truthyOpt (getProp [("name", JSValue.str "n"), ("type", JSValue.str "t"),
      ("server", JSValue.str "s"), ("port", JSValue.num 1)] "name") = true :=
  ⟨by decide,
    (c8_emitted_records_valid
      "proxies:\n- \x7b name: n, type: t, server: s, port: 1 \x7d"
      [("name", JSValue.str "n"), ("type", JSValue.str "t"),
       ("server", JSValue.str "s"), ("port", JSValue.num 1)] (by decide)).1⟩

/-- A successful record match pins down the first three characters of the
trimmed line. -/
theorem matchNode_shape (t : String) (body : String) (h : matchNode t = some body) :
    ∃ rest, t.data = '-' :: ' ' :: lbrace :: rest := by
  unfold matchNode at h
  split at h
  · rename_i a b c rest heq
    split at h
    · rename_i hguard
      have hg := hguard
      simp only [Bool.and_eq_true, beq_iff_eq] at hg
      obtain ⟨⟨⟨⟨⟨ha, hb⟩, hc⟩, -⟩, -⟩, -⟩ := hg
      exact ⟨rest, by rw [heq, ha, hb, hc]⟩
    · exact absurd h (by simp)
  · exact absurd h (by simp)

/-- A matched record line does not begin with the section header. -/
theorem matchNode_not_header (t : String) (body : String)
    (h : matchNode t = some body) : jsStartsWith t "proxies:" = false := by
  obtain ⟨rest, hd⟩ := matchNode_shape t body h
  show ("proxies:").data.isPrefixOf t.data = false
  rw [hd]
  have hp : ("proxies:").data = 'p' :: ("roxies:").data := rfl
  rw [hp, List.isPrefixOf_cons₂]
  rfl

/-- A matched record line never satisfies the section-exit test, since it
starts with the list-item marker. -/
theorem matchNode_not_exit (t : String) (body : String)
    (h : matchNode t = some body) : exitCond t = false := by
  obtain ⟨rest, hd⟩ := matchNode_shape t body h
  have hm : jsStartsWith t "-" = true := by
    show ("-").data.isPrefixOf t.data = true
    rw [hd]
    have hp : ("-").data = ['-'] := rfl
    rw [hp, List.isPrefixOf_cons₂]
    simp
  unfold exitCond
  rw [hm]
  rfl

/-- Claim C9: dropping an incomplete record is local and non-fatal: a
line that matches the record pattern but fails the required-field check
contributes nothing, and the scan of all following lines proceeds from
the same state, producing exactly the records it would produce without
the incomplete line. -/
theorem c9_incomplete_record_local (l : String) (ls : List String) (body : String)
    (hm : matchNode (jsTrim l) = some body)
    (hv : validProps (parseProps body) = false) :
    scanLines true (l :: ls) = scanLines true ls := by
  have h1 := matchNode_not_header (jsTrim l) body hm
  have h2 := matchNode_not_exit (jsTrim l) body hm
  simp only [scanLines, h1, h2, hm, hv]
  rfl

/-- Witness for claim C9 at a concrete incomplete record line. -/
theorem c9_witness :
    matchNode (jsTrim "- \x7b name: n \x7d") = some "name: n " ∧
    validProps (parseProps "name: n ") = false ∧
    scanLines true
        ["- \x7b name: n \x7d", "- \x7b name: a, type: b, server: c, port: 1 \x7d"] =
      scanLines true ["- \x7b name: a, type: b, server: c, port: 1 \x7d"] :=
  ⟨by decide, by decide,
    c9_incomplete_record_local "- \x7b name: n \x7d"
      ["- \x7b name: a, type: b, server: c, port: 1 \x7d"] "name: n "
      (by decide) (by decide)⟩
